import Mathlib

/-!
# Verification of the koila shape-inference engine and lazy-evaluation graph

A shallow embedding of `koila/shapes.py` and `koila/tensors.py`.  Shapes are
`List Nat` (Python tuples of non-negative sizes), Python exceptions are the
`Err` type threaded through `Except`, and the deferred-evaluation graph is a
mutual inductive family mirroring `LazyTensor` / `Evaluation`.  Types that the
source imports from modules not present in the repository snapshot
(`PartialInfo`, the `Shape`/`MetaData` classes, the error classes) are
modelled from the specification and carry a doc comment saying so.
-/

/-- The Python exceptions reachable from the embedded code: `TypeError`,
`ValueError`, a failed `assert`, `UnsupportedError` (with its message),
`NeverImplementedError`, and an error raised inside a host-library (torch)
operation itself, tagged with the operation's name. -/
inductive Err where
  | typeError
  | valueError
  | assertionError
  | unsupported (msg : String)
  | neverImplemented
  | host (op : String)
  deriving DecidableEq, Repr

/-- Model of an eager host-library tensor (§6 of the spec: an external
collaborator with shape introspection): a shape together with its elements in
row-major order.  Only the shape and dimension-0 slicing are consulted by the
embedded code. -/
structure Tensor where
  shape : List Nat
  data : List Int
  deriving DecidableEq, Repr

/-- Modelled from the spec: `PartialInfo` (imported by tensors.py from
`koila.partials`, which is absent from the snapshot) — "an index/slice
descriptor used during batched evaluation to restrict which rows (along the
batch dimension) are materialized for a given run" (§3).  Its `index` is a
half-open row range. -/
structure PartialInfo where
  lo : Nat
  hi : Nat
  deriving DecidableEq, Repr

/-- `data[partial​.index]`: slicing an eager tensor by a row range along
dimension 0, with Python slice clamping. -/
def Tensor.index (t : Tensor) (pinfo : PartialInfo) : Tensor :=
  match t.shape with
  | [] => t
  | d :: rest =>
    let lo := min pinfo.lo d
    let hi := min pinfo.hi d
    let rowsz := rest.prod
    ⟨(hi - lo) :: rest, ((t.data.drop (lo * rowsz)).take ((hi - lo) * rowsz))⟩

/-- A materialized run result: `run` returns tensors for tensor-likes and
passes plain scalars through unchanged (tensors.py lines 441-445). -/
inductive Value where
  | tensor (t : Tensor)
  | int (n : Int)
  | bool (b : Bool)
  deriving DecidableEq, Repr

/-- Modelled from the spec: the metadata carried by a `Shape`
(shapes.MetaData is imported by tensors.py but the class is absent from the
snapshot).  Of its fields (element type, device tag, optional batch index,
§3) only the batch-dimension index is consulted by the embedded code, so the
others are omitted. -/
structure MetaData where
  batch : Option Int
  deriving DecidableEq, Repr

/-- Modelled from the spec: the `Shape` value attached to a deferred node
(shapes.Shape is imported by tensors.py but the class is absent from the
snapshot): "an ordered sequence of non-negative dimension sizes, plus
metadata", compared structurally (§3). -/
structure Shape where
  value : List Nat
  metadata : MetaData
  deriving DecidableEq, Repr

/-- The type of a recorded host-library operation as stored in a deferred
node: it receives the materialized positional and keyword operands and either
returns an eager tensor or raises. -/
def TorchFunc := List Value → List (String × Value) → Except Err Tensor

deriving instance DecidableEq for Except

set_option allowUnsafeReducibility true in
attribute [semireducible] List.mergeSort List.merge

/-! ## The shape algebra (`koila/shapes.py`)

Shapes at this layer are plain tuples of sizes, embedded as `List Nat`.
Python `int` arguments that are not sizes (axis numbers) are embedded as
`Int`. -/

/-- shapes.py lines 20-24, `compatible`. -/
def compatible (input other : Nat) (broadcast : Bool) : Bool :=
  if broadcast then input == 1 || other == 1 || input == other
  else input == other

/-- shapes.py lines 27-39, `prepends`: left-pad the shorter tuple with `1`s.
`abs(li - lo)` on naturals is `(li - lo) + (lo - li)`. -/
def prepends (input other : List Nat) : List Nat × List Nat :=
  let li := input.length
  let lo := other.length
  let prepended := List.replicate ((li - lo) + (lo - li)) 1
  if li ≥ lo then (input, prepended ++ other) else (prepended ++ input, other)

/-- The `for (a, b) in zip(input, other)` loop of `coerce` (shapes.py lines
66-74): raise `ValueError` on a non-positive size (for `Nat` sizes, zero),
return `None` on an incompatible pair, else accumulate the max. -/
def coerceLoop : List (Nat × Nat) → List Nat → Except Err (Option (List Nat))
  | [], acc => Except.ok (some acc)
  | p :: rest, acc =>
    if p.1 = 0 ∨ p.2 = 0 then Except.error Err.valueError
    else if compatible p.1 p.2 true then coerceLoop rest (acc ++ [max p.1 p.2])
    else Except.ok none

/-- shapes.py lines 42-76, `coerce`: the general broadcasting resolver.
Incompatibility is the absence value `none`; a non-positive dimension raises. -/
def coerce (input other : List Nat) (broadcast scalars : Bool) :
    Except Err (Option (List Nat)) :=
  if scalars ∧ input.length = 0 then Except.ok (some other)
  else if scalars ∧ other.length = 0 then Except.ok (some input)
  else if input.length ≠ other.length then Except.ok none
  else if ¬ broadcast then
    if input = other then Except.ok (some input) else Except.ok none
  else
    let pr := prepends input other
    coerceLoop (pr.1.zip pr.2) []

/-- shapes.py lines 85-95, `symmetric`: broadcasting binary-op rule; raises
`ValueError` when `coerce` reports incompatibility. -/
def symmetric (input other : List Nat) : Except Err (List Nat) := do
  let shape ← coerce input other true true
  match shape with
  | none => Except.error Err.valueError
  | some s => Except.ok s

/-- shapes.py lines 98-124, `reduce_dims`.  `dim` is a single axis or a tuple
of axes; only set membership in it is consulted, so it is embedded as a list
(`{dim}` becomes the singleton list).  NOTE, faithful to the source: the loop
`for d in input` iterates over the *entries* (sizes) of `input`, not over
axis indices, appends `1` only under `keepdim`, and under `keepdim` asserts
that one entry was appended per input dimension. -/
def reduce_dims (input : List Nat) (dim : List Int) (keepdim : Bool) :
    Except Err (List Nat) :=
  let shapes : List Nat :=
    input.foldl (fun acc d =>
      if ¬ ((d : Int) ∈ dim) then acc
      else if keepdim then acc ++ [1]
      else acc) []
  if keepdim then
    if shapes.length = input.length then Except.ok shapes
    else Except.error Err.assertionError
  else Except.ok shapes

/-- Comparison key of `sorted(enumerate(dims), key=lambda pair: pair[1])`
(shapes.py line 147): order index/axis pairs by the axis value. -/
def byKey (a b : Nat × Int) : Bool := decide (a.2 ≤ b.2)

/-- Python's default tuple comparison on pairs of sizes, used by
`sorted(paired)` (shapes.py line 149): lexicographic. -/
def pyLe (p q : Nat × Nat) : Bool :=
  decide (p.1 < q.1) || (decide (p.1 = q.1) && decide (p.2 ≤ q.2))

/-- The `≤` order on `Int`, used for Python's `sorted(dims)`. -/
def intLe (a b : Int) : Bool := decide (a ≤ b)

/-- shapes.py lines 135-151, `permute`.  Python's `sorted` is embedded as
`List.mergeSort` (both are stable sorts); `len(set(dims))` is
`dims.dedup.length`. -/
def permute (input : List Nat) (dims : List Int) : Except Err (List Nat) :=
  if input.length ≠ dims.length then Except.error Err.typeError
  else if dims.mergeSort intLe ≠ (List.range dims.length).map Int.ofNat then
    Except.error Err.valueError
  else if dims.dedup.length ≠ dims.length then Except.error Err.valueError
  else
    let dims_order_pair := dims.enum.mergeSort byKey
    let scattered_dims := dims_order_pair.map Prod.fst
    let paired := (scattered_dims.zip input).mergeSort pyLe
    let reordered_dim := paired.map Prod.snd
    Except.ok reordered_dim

/-- In Python a tuple never compares equal to an int, so the conditions
`other == 2` and `other == 1` in shapes.py lines 194 and 200 (where `lo == 2`
and `lo == 1` were presumably meant) are constantly false. -/
def tuple_eq_int (t : List Nat) (n : Int) : Bool :=
  let _ := t
  let _ := n
  false

/-- shapes.py lines 167-218, `matmul`.  `input[:-2]` is `take (n - 2)`,
`input[-1]` is `getD (n - 1) 0`, `input[-2]` is `getD (n - 2) 0` (after
`prepends` both tuples have the same length `n ≥ 2` on every reachable path
of the final branch). -/
def matmul (input other : List Nat) : Except Err (List Nat) :=
  let li := input.length
  let lo := other.length
  if li = 0 ∨ lo = 0 then Except.error Err.valueError
  else if li = 1 ∧ lo = 1 then
    if input.getD 0 0 ≠ other.getD 0 0 then Except.error Err.valueError
    else Except.ok []
  else if li = 2 ∧ lo = 2 then
    if input.getD 1 0 ≠ other.getD 0 0 then Except.error Err.valueError
    else Except.ok [input.getD 0 0, other.getD 1 0]
  else if li = 1 ∧ tuple_eq_int other 2 then
    if input.getD 0 0 ≠ other.getD 0 0 then Except.error Err.valueError
    else Except.ok [other.getD 1 0]
  else if li = 2 ∧ tuple_eq_int other 1 then
    if input.getD 1 0 ≠ other.getD 0 0 then Except.error Err.valueError
    else Except.ok [input.getD 0 0]
  else
    let pr := prepends input other
    let inp := pr.1
    let oth := pr.2
    let n := inp.length
    let batchPairs := (inp.take (n - 2)).zip (oth.take (n - 2))
    if batchPairs.all (fun p => compatible p.1 p.2 true) then
      if inp.getD (n - 1) 0 ≠ oth.getD (n - 2) 0 then Except.error Err.valueError
      else
        Except.ok ((batchPairs.map (fun p => max p.1 p.2)) ++
          [inp.getD (n - 2) 0, oth.getD (n - 1) 0])
    else Except.error Err.valueError

/-! ## The lazy-evaluation graph (`koila/tensors.py`)

`LazyTensor` wraps either a materialized tensor or a deferred `Evaluation`
node (the constructor aliases the contents of a nested `LazyTensor`, so the
stored data is always one of those two).  Operands of a node are the tagged
union {lazy value, eager tensor, scalar number} of the spec's data model. -/

mutual
/-- The storage of a lazy value: a materialized tensor or a deferred node
(tensors.py lines 136-146; a nested `LazyTensor` is unwrapped on
construction, so only these two states exist). -/
inductive TData where
  | tensor (t : Tensor)
  | node (e : Evaluation)

/-- tensors.py lines 134-146, `LazyTensor`: storage plus the optional
declared batch-dimension index. -/
inductive LazyTensor where
  | mk (d : TData) (b : Option Int)

/-- An operation operand: `LazyTensor | Tensor | int | float | bool`
(tensors.py lines 70-75).  Python numeric scalars are embedded as `Int`. -/
inductive Operand where
  | lazy (t : LazyTensor)
  | tensor (t : Tensor)
  | int (n : Int)
  | bool (b : Bool)

/-- tensors.py lines 64-131, `Evaluation`: the recorded operation, the
precomputed output shape, the optional partial-execution callback, and the
positional and keyword operands. -/
inductive Evaluation where
  | mk (func : TorchFunc) (shape : Shape) (callback : Option (Tensor → Tensor))
       (args : List Operand) (kwargs : List (String × Operand))
end

def LazyTensor._data : LazyTensor → TData
  | .mk d _ => d

def LazyTensor._batch : LazyTensor → Option Int
  | .mk _ b => b

def Evaluation.func : Evaluation → TorchFunc
  | .mk f _ _ _ _ => f

def Evaluation.shape : Evaluation → Shape
  | .mk _ sh _ _ _ => sh

def Evaluation.callback : Evaluation → Option (Tensor → Tensor)
  | .mk _ _ cb _ _ => cb

def Evaluation.args : Evaluation → List Operand
  | .mk _ _ _ as _ => as

def Evaluation.kwargs : Evaluation → List (String × Operand)
  | .mk _ _ _ _ ks => ks

/-- tensors.py lines 114-119, `Evaluation.size` with `dim=None`: the
predicted shape's value. -/
def Evaluation.size (e : Evaluation) : List Nat :=
  e.shape.value

/-- tensors.py lines 130-131, `Evaluation.batch`: the batch index recorded in
the shape metadata. -/
def Evaluation.batch (e : Evaluation) : Option Int :=
  e.shape.metadata.batch

/-- `data.size()` for the two storage states (torch shape introspection for a
materialized tensor, the predicted shape for a node). -/
def TData.size : TData → List Nat
  | .tensor t => t.shape
  | .node e => e.size

/-- tensors.py lines 168-174, `LazyTensor.size` with `dim=None`. -/
def LazyTensor.size (self : LazyTensor) : List Nat :=
  self._data.size

/-- tensors.py lines 185-186, `LazyTensor.batch`: the method body evaluates
`self._batch` but has no `return` statement, so Python returns `None`. -/
def LazyTensor.batch (self : LazyTensor) : Option Int :=
  let _ := self._batch
  none

mutual
/-- tensors.py lines 421-445, the module-level `run`: a `Runnable` is run
with the same descriptor, anything else is returned unchanged. -/
def Operand.run : Operand → Option PartialInfo → Except Err Value
  | .lazy lt, pt => (LazyTensor.run lt pt).map .tensor
  | .tensor t, _ => .ok (.tensor t)
  | .int n, _ => .ok (.int n)
  | .bool b, _ => .ok (.bool b)

/-- tensors.py lines 150-158, `LazyTensor.run`: materialized storage is
returned as-is for a full run and sliced by `partial​.index` for a partial
run; a deferred node delegates to `Evaluation.run`. -/
def LazyTensor.run : LazyTensor → Option PartialInfo → Except Err Tensor
  | .mk (.tensor t) _, none => .ok t
  | .mk (.tensor t) _, some pt => .ok (t.index pt)
  | .mk (.node e) _, pt => Evaluation.run e pt

/-- tensors.py lines 95-112, `Evaluation.run`: run every operand with the
same descriptor (the `partial is None` branch calls `run(arg)`, which equals
`run(arg, None)`), apply the recorded operation, then — only for a partial
run — require and apply the callback, and finally assert that the realized
shape equals the predicted shape (Shape/tuple comparison is structural,
spec §3). -/
def Evaluation.run : Evaluation → Option PartialInfo → Except Err Tensor
  | .mk func shape callback args kwargs, pt => do
    let real_args ← runArgs args pt
    let real_kwargs ← runKwargs kwargs pt
    let result ← func real_args real_kwargs
    let result ← (match pt with
      | none => Except.ok result
      | some _ =>
        match callback with
        | none => Except.error (Err.unsupported ("Cannot safely parallelize."))
        | some cb => Except.ok (cb result))
    if shape.value = result.shape then Except.ok result
    else Except.error Err.assertionError

/-- `[run(arg, partial) for arg in self.args]`. -/
def runArgs : List Operand → Option PartialInfo → Except Err (List Value)
  | [], _ => .ok []
  | a :: rest, pt => do
    let v ← Operand.run a pt
    let vs ← runArgs rest pt
    .ok (v :: vs)

/-- `{k: run(v, partial) for (k, v) in self.kwargs.items()}`. -/
def runKwargs : List (String × Operand) → Option PartialInfo →
    Except Err (List (String × Value))
  | [], _ => .ok []
  | (k, a) :: rest, pt => do
    let v ← Operand.run a pt
    let vs ← runKwargs rest pt
    .ok ((k, v) :: vs)
end

/-- The result of an operation routed through `lazy_forward`: a lazy value
wrapping a deferred node, or an eager materialized tensor. -/
inductive ForwardResult where
  | lazyT (t : LazyTensor)
  | eager (t : Tensor)

/-- A shape-inference table entry as invoked by `LazyFunction.__call__`: it
receives the raw operands and produces the predicted `Shape` or raises. -/
def ShapeFunction := List Operand → List (String × Operand) → Except Err Shape

/-- tensors.py lines 411-418, `lazy`: a tensor is wrapped in a `LazyTensor`
(with no declared batch), a `LazyTensor` and plain scalars pass through. -/
def lazyOp : Operand → Operand
  | .tensor t => .lazy (.mk (.tensor t) none)
  | o => o

/-- tensors.py lines 45-54, `LazyFunction`: an eager operation paired with
its shape function. -/
structure LazyFunction where
  func : TorchFunc
  shape_func : ShapeFunction

/-- tensors.py lines 50-54, `LazyFunction.__call__`: coerce every operand
with `lazy`, predict the shape from the *raw* arguments, and build an
`Evaluation` with no callback, wrapped in a `LazyTensor`. -/
def LazyFunction.call (self : LazyFunction) (args : List Operand)
    (kwargs : List (String × Operand)) : Except Err LazyTensor := do
  let lazy_args := args.map lazyOp
  let lazy_kwargs := kwargs.map (fun kv => (kv.1, lazyOp kv.2))
  let shape ← self.shape_func args kwargs
  Except.ok (.mk (.node (.mk self.func shape none lazy_args lazy_kwargs)) none)

/-- tensors.py lines 448-454, `lazy_forward`.  The surrounding
differentiation flag (`torch.is_grad_enabled()`, external state per spec §6)
is passed explicitly.  In the eager branch the source returns
`func(*args, **kwargs)` directly; at `Value` type this is the host library
receiving each argument's eager value (a tensor or scalar passes through
unchanged — the embedded claims only use such arguments there). -/
def lazy_forward (func : TorchFunc) (shape_func : ShapeFunction)
    (grad_enabled : Bool) (args : List Operand)
    (kwargs : List (String × Operand)) : Except Err ForwardResult :=
  if grad_enabled then
    (LazyFunction.call ⟨func, shape_func⟩ args kwargs).map .lazyT
  else do
    let va ← runArgs args none
    let vk ← runKwargs kwargs none
    let t ← func va vk
    Except.ok (.eager t)

/-- Modelled from the spec: the shape of an operand reference as the dispatch
layer predicts it — a tensor's recorded shape, a lazy value's size (the
predicted shape for deferred storage), and rank 0 for plain scalar numbers
(§3 "Operand reference", §4.1 scalar absorption). -/
def opShape : Operand → Except Err (List Nat)
  | .lazy lt => Except.ok lt.size
  | .tensor t => Except.ok t.shape
  | .int _ => Except.ok []
  | .bool _ => Except.ok []

/-- Modelled from the spec: the shape-ops table adapter for
`shapes.symmetric` — the table entry computes the output shape from the two
operands' shapes (§4.2 "predicted shape computed by the table entry");
metadata propagation is external to the embedded claims, so the batch index
is left empty. -/
def shapefn_symmetric : ShapeFunction := fun args kwargs =>
  let _ := kwargs
  match args with
  | [a, b] => do
    let sa ← opShape a
    let sb ← opShape b
    let v ← symmetric sa sb
    Except.ok ⟨v, ⟨none⟩⟩
  | _ => Except.error Err.typeError

/-- Modelled from the spec: the shape-ops table adapter for
`shapes.reduce_dims`, restricted to the argument forms the embedded
dispatcher passes it.  `reduce_dims` requires a `dim` argument, so a bare
input raises `TypeError`; a single integer axis (positional or keyword) is
accepted, with an optional boolean `keepdim`. -/
def shapefn_reduce_dims : ShapeFunction := fun args kwargs =>
  let keep : Bool :=
    match kwargs.lookup ("keepdim") with
    | some (.bool b) => b
    | _ => false
  match args with
  | [input] =>
    (match kwargs.lookup ("dim") with
     | some (.int d) => do
        let s ← opShape input
        let v ← reduce_dims s [d] keep
        Except.ok ⟨v, ⟨none⟩⟩
     | _ => Except.error Err.typeError)
  | [input, .int d] => do
    let s ← opShape input
    let v ← reduce_dims s [d] keep
    Except.ok ⟨v, ⟨none⟩⟩
  | [input, .int d, .bool k] => do
    let s ← opShape input
    let v ← reduce_dims s [d] k
    Except.ok ⟨v, ⟨none⟩⟩
  | _ => Except.error Err.typeError

/-- Modelled from the spec (§6): `torch.min`, an eager host-library
operation.  Its data-level behaviour is external to the core and never
consulted by the claims; it is tagged with its name. -/
def torch_min : TorchFunc := fun _ _ => Except.error (Err.host ("min"))

/-- Modelled from the spec (§6): `torch.max`, an eager host-library
operation. -/
def torch_max : TorchFunc := fun _ _ => Except.error (Err.host ("max"))

/-- Modelled from the spec (§6): `torch.minimum`, the elementwise minimum. -/
def torch_minimum : TorchFunc := fun _ _ => Except.error (Err.host ("minimum"))

/-- Modelled from the spec (§6): `torch.maximum`, the elementwise maximum. -/
def torch_maximum : TorchFunc := fun _ _ => Except.error (Err.host ("maximum"))

/-- Modelled from the spec (§6): `torch.amin`. -/
def torch_amin : TorchFunc := fun _ _ => Except.error (Err.host ("amin"))

/-- Modelled from the spec (§6): `torch.amax`. -/
def torch_amax : TorchFunc := fun _ _ => Except.error (Err.host ("amax"))

/-- Modelled from the spec (§6): `torch.argmin`. -/
def torch_argmin : TorchFunc := fun _ _ => Except.error (Err.host ("argmin"))

/-- Modelled from the spec (§6): `torch.argmax`. -/
def torch_argmax : TorchFunc := fun _ _ => Except.error (Err.host ("argmax"))

/-- tensors.py lines 235-237, `LazyTensor.__floordiv__`: `del other; raise
NeverImplementedError`.  The differentiation flag, which the method never
consults, is passed explicitly so that independence from it can be stated. -/
def LazyTensor.floordiv (self : LazyTensor) (other : Operand)
    (grad_enabled : Bool) : Except Err ForwardResult :=
  let _ := self
  let _ := other
  let _ := grad_enabled
  Except.error Err.neverImplemented

/-- tensors.py lines 239-241, `LazyTensor.__rfloordiv__`: identical to
`__floordiv__`. -/
def LazyTensor.rfloordiv (self : LazyTensor) (other : Operand)
    (grad_enabled : Bool) : Except Err ForwardResult :=
  let _ := self
  let _ := other
  let _ := grad_enabled
  Except.error Err.neverImplemented

/-- tensors.py lines 686-688: the `"__floordiv__"` entry of the `SHAPE_OPS`
function table is `NeverImplementedError.raise_error`, which raises
unconditionally when invoked. -/
def SHAPE_OPS_floordiv : ShapeFunction := fun args kwargs =>
  let _ := args
  let _ := kwargs
  Except.error Err.neverImplemented

/-- The value/index pair returned by the custom min/max implementations
(tensors.py lines 460-462, `_ValIdx`), or a single lazy-forwarded result. -/
inductive MinMaxResult where
  | single (r : ForwardResult)
  | valIdx (values indices : ForwardResult)

/-- `isinstance(args[0], (Tensor, LazyTensor))`. -/
def isTensorLike : Operand → Bool
  | .tensor _ => true
  | .lazy _ => true
  | _ => false

/-- tensors.py lines 480-496, `_min`.  The walrus condition
`len(args) == 1 and isinstance((other := args[0]), (Tensor, LazyTensor))
or len(kwargs) == 1 and (other := kwargs.get("other", None) is not None)`
binds, in the keyword case, the *Boolean* result of the presence test
(`is not None` binds tighter than `:=` inside the parentheses), so the
operand forwarded to `torch.minimum` is then the constant `True`. -/
def pymin (input : Operand) (args : List Operand)
    (kwargs : List (String × Operand)) (grad_enabled : Bool) :
    Except Err MinMaxResult :=
  if args.length = 0 ∧ kwargs.length = 0 then
    (lazy_forward torch_min shapefn_reduce_dims grad_enabled [input] []).map .single
  else if args.length = 1 ∧ isTensorLike (args.headD (.int 0)) then
    (lazy_forward torch_minimum shapefn_symmetric grad_enabled
      [input, args.headD (.int 0)] []).map .single
  else if kwargs.length = 1 ∧ (kwargs.lookup ("other")).isSome then
    (lazy_forward torch_minimum shapefn_symmetric grad_enabled
      [input, .bool true] []).map .single
  else do
    let v ← lazy_forward torch_amin shapefn_reduce_dims grad_enabled (input :: args) kwargs
    let i ← lazy_forward torch_argmin shapefn_reduce_dims grad_enabled (input :: args) kwargs
    Except.ok (.valIdx v i)

/-- tensors.py lines 514-530, `_max`: identical to `_min` with
`torch.max`/`torch.maximum`/`torch.amax`/`torch.argmax`, including the same
walrus binding of the keyword presence test. -/
def pymax (input : Operand) (args : List Operand)
    (kwargs : List (String × Operand)) (grad_enabled : Bool) :
    Except Err MinMaxResult :=
  if args.length = 0 ∧ kwargs.length = 0 then
    (lazy_forward torch_max shapefn_reduce_dims grad_enabled [input] []).map .single
  else if args.length = 1 ∧ isTensorLike (args.headD (.int 0)) then
    (lazy_forward torch_maximum shapefn_symmetric grad_enabled
      [input, args.headD (.int 0)] []).map .single
  else if kwargs.length = 1 ∧ (kwargs.lookup ("other")).isSome then
    (lazy_forward torch_maximum shapefn_symmetric grad_enabled
      [input, .bool true] []).map .single
  else do
    let v ← lazy_forward torch_amax shapefn_reduce_dims grad_enabled (input :: args) kwargs
    let i ← lazy_forward torch_argmax shapefn_reduce_dims grad_enabled (input :: args) kwargs
    Except.ok (.valIdx v i)

/-! ## Generic reduction lemmas for `Except` -/

theorem except_ok_bind {ε : Type u} {α β : Type v} (a : α)
    (f : α → Except ε β) : (Except.ok a >>= f) = f a := rfl

theorem except_error_bind {ε : Type u} {α β : Type v} (e : ε)
    (f : α → Except ε β) : ((Except.error e : Except ε α) >>= f) = Except.error e := rfl

/-! ## The claims -/

/-- C1: the claim says `reduce_dims(s, dim, keepdim=False)` removes the named
axes (so `reduce_dims((2, 3, 5), 0) == (3, 5)`) and that with `keepdim` the
reduced axes collapse to `1` in place.  The code instead iterates over the
*sizes* of `input`: without `keepdim` it always returns `()`, and with
`keepdim` its own `len(shapes) == len(input)` assertion fails here. -/
theorem C1_reduce_dims_at_failing_input :
    reduce_dims [2, 3, 5] [0] false = Except.ok [] ∧
    reduce_dims [2, 3, 5] [0] true = Except.error Err.assertionError :=
  ⟨rfl, rfl⟩

/-- C2: the claim says `matmul((m, k), (k,)) == (m,)`,
`matmul((k,), (k, n)) == (n,)`, and that an inner-dimension mismatch in these
forms raises.  Because the source compares the tuple `other` with the ints
`2`/`1`, the mat·vec and vec·mat branches are dead: `matmul((2, 3), (3,))`
raises, `matmul((3,), (3, 4))` returns `(1, 4)`, and the mismatched
`matmul((2, 1), (5,))` returns `(2, 5)` instead of raising. -/
theorem C2_matmul_at_failing_inputs :
    matmul [2, 3] [3] = Except.error Err.valueError ∧
    matmul [3] [3, 4] = Except.ok [1, 4] ∧
    matmul [2, 1] [5] = Except.ok [2, 5] :=
  ⟨rfl, rfl, rfl⟩

/-- C3 (counterexample): the claim says `run` on a lazy value with
materialized storage ignores a non-null `partial` and returns the stored
tensor unchanged; on the stored tensor of shape `[2]` with rows `10, 20` and
the descriptor selecting row 0, `run` returns the slice, not the stored
tensor. -/
theorem C3_run_materialized_counterexample :
    LazyTensor.run (.mk (.tensor ⟨[2], [10, 20]⟩) none) (some ⟨0, 1⟩) ≠
      Except.ok ⟨[2], [10, 20]⟩ ∧
    LazyTensor.run (.mk (.tensor ⟨[2], [10, 20]⟩) none) (some ⟨0, 1⟩) =
      Except.ok ⟨[1], [10]⟩ :=
  ⟨by decide, rfl⟩

/-- C3 (amended): for a lazy value with materialized storage, `run` with a
null descriptor returns the stored tensor unchanged, and `run` with a
non-null descriptor returns the stored tensor sliced by the descriptor's
index (`data[partial​.index]`). -/
theorem C3_run_materialized (t : Tensor) (b : Option Int) :
    LazyTensor.run (.mk (.tensor t) b) none = Except.ok t ∧
    ∀ pt : PartialInfo, LazyTensor.run (.mk (.tensor t) b) (some pt) =
      Except.ok (t.index pt) :=
  ⟨rfl, fun _ => rfl⟩

/-- C4: the claim says `LazyTensor.batch()` returns the declared
batch-dimension index; the method body lacks a `return`, so it returns
`None` even for a value declared with batch index 1.  The `Evaluation.batch`
half of the claim does hold: it returns the batch index recorded in the
node's shape metadata. -/
theorem C4_batch_at_failing_input :
    LazyTensor.batch (.mk (.tensor ⟨[2], [0, 0]⟩) (some 1)) = none ∧
    ∀ e : Evaluation, Evaluation.batch e = e.shape.metadata.batch :=
  ⟨rfl, fun _ => rfl⟩

/-- C5 (counterexample): the claim says a partial run of a node without a
callback raises the unsupported-operation error *before any result is
produced*; but the recorded operation runs first, so when it itself raises
(here a host-side failure), its error surfaces instead of the
"Cannot safely parallelize." error. -/
theorem C5_partial_callback_counterexample :
    Evaluation.run (.mk (fun _ _ => Except.error (Err.host ("oom")))
        ⟨[], ⟨none⟩⟩ none [] []) (some ⟨0, 1⟩) =
      Except.error (Err.host ("oom")) ∧
    Evaluation.run (.mk (fun _ _ => Except.error (Err.host ("oom")))
        ⟨[], ⟨none⟩⟩ none [] []) (some ⟨0, 1⟩) ≠
      Except.error (Err.unsupported ("Cannot safely parallelize.")) :=
  ⟨rfl, by decide⟩

/-- C5 (amended): when the operands and the recorded operation itself
succeed, a partial run of a node without a partial-execution callback raises
the unsupported-operation error "Cannot safely parallelize." — though only
after the recorded operation has been applied; and when the callback is
present, it is applied to the raw result of the recorded operation (the run
returning the adapted result when it has the predicted shape). -/
theorem C5_partial_callback (func : TorchFunc) (shape : Shape)
    (args : List Operand) (kwargs : List (String × Operand)) (pinfo : PartialInfo)
    (va : List Value) (vk : List (String × Value)) (raw : Tensor)
    (ha : runArgs args (some pinfo) = Except.ok va)
    (hk : runKwargs kwargs (some pinfo) = Except.ok vk)
    (hf : func va vk = Except.ok raw) :
    Evaluation.run (.mk func shape none args kwargs) (some pinfo) =
      Except.error (Err.unsupported ("Cannot safely parallelize.")) ∧
    ∀ cb : Tensor → Tensor, shape.value = (cb raw).shape →
      Evaluation.run (.mk func shape (some cb) args kwargs) (some pinfo) =
        Except.ok (cb raw) := by
  constructor
  · rw [Evaluation.run, ha]
    simp only [except_ok_bind]
    rw [hk]
    simp only [except_ok_bind]
    rw [hf]
    simp only [except_ok_bind, except_error_bind]
  · intro cb hshape
    rw [Evaluation.run, ha]
    simp only [except_ok_bind]
    rw [hk]
    simp only [except_ok_bind]
    rw [hf]
    simp only [except_ok_bind]
    rw [if_pos hshape]

/-- C5 (witness): a concrete node whose recorded operation succeeds — the
partial run without a callback raises the unsupported error, and with the
identity callback it returns the raw result. -/
theorem C5_partial_callback_witness :
    Evaluation.run (.mk (fun _ _ => Except.ok (⟨[2], [1, 2]⟩ : Tensor))
        ⟨[2], ⟨none⟩⟩ none [] []) (some ⟨0, 1⟩) =
      Except.error (Err.unsupported ("Cannot safely parallelize.")) ∧
    Evaluation.run (.mk (fun _ _ => Except.ok (⟨[2], [1, 2]⟩ : Tensor))
        ⟨[2], ⟨none⟩⟩ (some (fun t => t)) [] []) (some ⟨0, 1⟩) =
      Except.ok ⟨[2], [1, 2]⟩ :=
  ⟨(C5_partial_callback (fun _ _ => Except.ok (⟨[2], [1, 2]⟩ : Tensor))
      ⟨[2], ⟨none⟩⟩ [] [] ⟨0, 1⟩ [] [] ⟨[2], [1, 2]⟩ rfl rfl rfl).1,
   (C5_partial_callback (fun _ _ => Except.ok (⟨[2], [1, 2]⟩ : Tensor))
      ⟨[2], ⟨none⟩⟩ [] [] ⟨0, 1⟩ [] [] ⟨[2], [1, 2]⟩ rfl rfl rfl).2 (fun t => t) rfl⟩

/-- C6: with the differentiation flag disabled, `lazy_forward` never yields a
lazy value wrapping a deferred node, and when materializing the arguments
succeeds its result is the eager function's output marked eager — a deferred
node is built only on the enabled branch. -/
theorem C6_no_grad_is_eager (func : TorchFunc) (shape_func : ShapeFunction)
    (args : List Operand) (kwargs : List (String × Operand)) :
    (∀ lt : LazyTensor, lazy_forward func shape_func false args kwargs ≠
      Except.ok (ForwardResult.lazyT lt)) ∧
    (∀ (va : List Value) (vk : List (String × Value)),
      runArgs args none = Except.ok va → runKwargs kwargs none = Except.ok vk →
      lazy_forward func shape_func false args kwargs =
        (func va vk).map ForwardResult.eager) := by
  constructor
  · intro lt h
    simp only [lazy_forward, if_neg (Bool.false_ne_true)] at h
    rcases ha : runArgs args none with e₁ | va <;>
      rw [ha] at h <;>
      simp only [except_error_bind, except_ok_bind] at h
    · cases h
    rcases hk : runKwargs kwargs none with e₂ | vk <;>
      rw [hk] at h <;>
      simp only [except_error_bind, except_ok_bind] at h
    · cases h
    rcases hf : func va vk with e₃ | t <;>
      rw [hf] at h <;>
      simp only [except_error_bind, except_ok_bind] at h
    · cases h
    · cases h
  · intro va vk ha hk
    simp only [lazy_forward, if_neg (Bool.false_ne_true)]
    rw [ha, hk]
    simp only [except_ok_bind]
    rcases hf : func va vk with e₃ | t <;>
      simp only [except_error_bind, except_ok_bind, Except.map]

/-- C6 (witness): a concrete eager call through `lazy_forward` with the flag
disabled. -/
theorem C6_no_grad_is_eager_witness :
    runArgs [Operand.tensor ⟨[2], [1, 2]⟩] none =
      Except.ok [Value.tensor ⟨[2], [1, 2]⟩] ∧
    runKwargs [] none = Except.ok [] ∧
    lazy_forward (fun _ _ => Except.ok (⟨[], [7]⟩ : Tensor)) shapefn_symmetric false
        [Operand.tensor ⟨[2], [1, 2]⟩] [] =
      (Except.ok (⟨[], [7]⟩ : Tensor)).map ForwardResult.eager :=
  ⟨rfl, rfl,
   (C6_no_grad_is_eager (fun _ _ => Except.ok (⟨[], [7]⟩ : Tensor)) shapefn_symmetric
      [Operand.tensor ⟨[2], [1, 2]⟩] []).2 [Value.tensor ⟨[2], [1, 2]⟩] [] rfl rfl⟩

/-- C8: invoking floor-division (or its reflected form) on a lazy value
raises `NeverImplementedError` unconditionally — for every operand and
either state of the differentiation flag, with no node construction and no
eager evaluation; the `SHAPE_OPS` entry for `"__floordiv__"` raises the
same error for every argument list. -/
theorem C8_floordiv_never_implemented :
    ∀ (self : LazyTensor) (other : Operand) (grad_enabled : Bool),
      LazyTensor.floordiv self other grad_enabled =
        Except.error Err.neverImplemented ∧
      LazyTensor.rfloordiv self other grad_enabled =
        Except.error Err.neverImplemented ∧
      ∀ (args : List Operand) (kwargs : List (String × Operand)),
        SHAPE_OPS_floordiv args kwargs = Except.error Err.neverImplemented :=
  fun _ _ _ => ⟨rfl, rfl, fun _ _ => rfl⟩

/-- C9: whenever `Evaluation.run` returns a tensor — full or partial run,
callback or not — that tensor's realized shape equals the node's predicted
shape; a mismatch after the callback adapts the raw result fails the
assertion instead of returning. -/
theorem C9_run_shape_invariant (e : Evaluation) (pt : Option PartialInfo)
    (t : Tensor) (h : Evaluation.run e pt = Except.ok t) :
    t.shape = e.shape.value := by
  rcases e with ⟨func, shape, cb, args, kwargs⟩
  rw [Evaluation.run] at h
  rcases ha : runArgs args pt with e₁ | va <;>
    rw [ha] at h <;> simp only [except_error_bind, except_ok_bind] at h
  · cases h
  rcases hk : runKwargs kwargs pt with e₂ | vk <;>
    rw [hk] at h <;> simp only [except_error_bind, except_ok_bind] at h
  · cases h
  rcases hf : func va vk with e₃ | raw <;>
    rw [hf] at h <;> simp only [except_error_bind, except_ok_bind] at h
  · cases h
  rcases pt with _ | pinfo
  · simp only [except_ok_bind] at h
    split at h
    · next heq => cases h; exact heq.symm
    · cases h
  · rcases cb with _ | cbf
    · simp only [except_error_bind] at h
      cases h
    · simp only [except_ok_bind] at h
      split at h
      · next heq => cases h; exact heq.symm
      · cases h

/-- C9 (witness): a concrete partial run with an identity callback returns a
tensor whose shape equals the node's predicted shape. -/
theorem C9_run_shape_invariant_witness :
    Evaluation.run (.mk (fun _ _ => Except.ok (⟨[2], [5, 6]⟩ : Tensor))
        ⟨[2], ⟨some 0⟩⟩ (some (fun t => t)) [] []) (some ⟨0, 2⟩) =
      Except.ok ⟨[2], [5, 6]⟩ ∧
    Tensor.shape ⟨[2], [5, 6]⟩ =
      (Evaluation.shape (.mk (fun _ _ => Except.ok (⟨[2], [5, 6]⟩ : Tensor))
        ⟨[2], ⟨some 0⟩⟩ (some (fun t => t)) [] [])).value :=
  ⟨rfl, C9_run_shape_invariant _ (some ⟨0, 2⟩) _ rfl⟩

/-- C10: in the custom min/max implementations, supplying the second tensor
operand by keyword (`other=t`) forwards the Boolean `True` — the result of
the walrus-bound presence test — as the second operand of the elementwise
minimum/maximum node, while the positional form forwards `t` itself. -/
theorem C10_minmax_keyword_forwards_bool (input t : Operand) (sh sh' : Shape) :
    (shapefn_symmetric [input, Operand.bool true] [] = Except.ok sh →
      pymin input [] [("other", t)] true =
        Except.ok (MinMaxResult.single (ForwardResult.lazyT
          (.mk (.node (.mk torch_minimum sh none
            [lazyOp input, Operand.bool true] [])) none))) ∧
      pymax input [] [("other", t)] true =
        Except.ok (MinMaxResult.single (ForwardResult.lazyT
          (.mk (.node (.mk torch_maximum sh none
            [lazyOp input, Operand.bool true] [])) none)))) ∧
    (isTensorLike t = true →
      shapefn_symmetric [input, t] [] = Except.ok sh' →
      pymin input [t] [] true =
        Except.ok (MinMaxResult.single (ForwardResult.lazyT
          (.mk (.node (.mk torch_minimum sh' none
            [lazyOp input, lazyOp t] [])) none))) ∧
      pymax input [t] [] true =
        Except.ok (MinMaxResult.single (ForwardResult.lazyT
          (.mk (.node (.mk torch_maximum sh' none
            [lazyOp input, lazyOp t] [])) none)))) := by
  constructor
  · intro hsh
    constructor
    · simp only [pymin]
      rw [if_neg (by simp), if_neg (by simp), if_pos (by simp [List.lookup])]
      simp only [lazy_forward, if_true, LazyFunction.call, List.map, lazyOp, hsh,
        except_ok_bind, Except.map]
    · simp only [pymax]
      rw [if_neg (by simp), if_neg (by simp), if_pos (by simp [List.lookup])]
      simp only [lazy_forward, if_true, LazyFunction.call, List.map, lazyOp, hsh,
        except_ok_bind, Except.map]
  · intro htl hsh
    constructor
    · simp only [pymin]
      rw [if_neg (by simp), if_pos (by simp [htl])]
      simp only [lazy_forward, if_true, LazyFunction.call, List.map, lazyOp, hsh,
        except_ok_bind, Except.map, List.headD]
    · simp only [pymax]
      rw [if_neg (by simp), if_pos (by simp [htl])]
      simp only [lazy_forward, if_true, LazyFunction.call, List.map, lazyOp, hsh,
        except_ok_bind, Except.map, List.headD]

/-- C10 (witness): concrete tensors — the keyword form builds minimum/maximum
nodes whose second operand is the Boolean `True`; the positional form
forwards the lazily wrapped tensor itself. -/
theorem C10_minmax_keyword_forwards_bool_witness :
    pymin (Operand.tensor ⟨[2], [1, 2]⟩) [] [("other", Operand.tensor ⟨[2], [3, 4]⟩)] true =
      Except.ok (MinMaxResult.single (ForwardResult.lazyT
        (.mk (.node (.mk torch_minimum ⟨[2], ⟨none⟩⟩ none
          [lazyOp (Operand.tensor ⟨[2], [1, 2]⟩), Operand.bool true] [])) none))) ∧
    pymax (Operand.tensor ⟨[2], [1, 2]⟩) [] [("other", Operand.tensor ⟨[2], [3, 4]⟩)] true =
      Except.ok (MinMaxResult.single (ForwardResult.lazyT
        (.mk (.node (.mk torch_maximum ⟨[2], ⟨none⟩⟩ none
          [lazyOp (Operand.tensor ⟨[2], [1, 2]⟩), Operand.bool true] [])) none))) ∧
    isTensorLike (Operand.tensor ⟨[2], [3, 4]⟩) = true ∧
    pymin (Operand.tensor ⟨[2], [1, 2]⟩) [Operand.tensor ⟨[2], [3, 4]⟩] [] true =
      Except.ok (MinMaxResult.single (ForwardResult.lazyT
        (.mk (.node (.mk torch_minimum ⟨[2], ⟨none⟩⟩ none
          [lazyOp (Operand.tensor ⟨[2], [1, 2]⟩),
           lazyOp (Operand.tensor ⟨[2], [3, 4]⟩)] [])) none))) :=
  ⟨((C10_minmax_keyword_forwards_bool (Operand.tensor ⟨[2], [1, 2]⟩)
      (Operand.tensor ⟨[2], [3, 4]⟩) ⟨[2], ⟨none⟩⟩ ⟨[2], ⟨none⟩⟩).1 rfl).1,
   ((C10_minmax_keyword_forwards_bool (Operand.tensor ⟨[2], [1, 2]⟩)
      (Operand.tensor ⟨[2], [3, 4]⟩) ⟨[2], ⟨none⟩⟩ ⟨[2], ⟨none⟩⟩).1 rfl).2,
   rfl,
   ((C10_minmax_keyword_forwards_bool (Operand.tensor ⟨[2], [1, 2]⟩)
      (Operand.tensor ⟨[2], [3, 4]⟩) ⟨[2], ⟨none⟩⟩ ⟨[2], ⟨none⟩⟩).2 rfl rfl).1⟩

/-! ## Correctness of `permute` (C7)

`sorted(enumerate(dims), key=...)` applied to a permutation `dims` of
`0..n-1` yields the graph of the inverse permutation, and the second sort
therefore scatters the sizes to positions `dims[i] -> i`; the proofs
characterise each `mergeSort` result as the unique sorted list among the
permutations of its input. -/

theorem intLe_trans : ∀ a b c : Int, intLe a b = true → intLe b c = true →
    intLe a c = true := by
  intro a b c
  simp only [intLe, decide_eq_true_eq]
  omega

theorem intLe_total : ∀ a b : Int, (intLe a b || intLe b a) = true := by
  intro a b
  simp only [intLe, Bool.or_eq_true, decide_eq_true_eq]
  omega

theorem byKey_trans : ∀ a b c : Nat × Int, byKey a b = true → byKey b c = true →
    byKey a c = true := by
  intro a b c
  simp only [byKey, decide_eq_true_eq]
  omega

theorem byKey_total : ∀ a b : Nat × Int, (byKey a b || byKey b a) = true := by
  intro a b
  simp only [byKey, Bool.or_eq_true, decide_eq_true_eq]
  omega

theorem pyLe_trans : ∀ a b c : Nat × Nat, pyLe a b = true → pyLe b c = true →
    pyLe a c = true := by
  intro a b c
  simp only [pyLe, Bool.or_eq_true, Bool.and_eq_true, decide_eq_true_eq]
  omega

theorem pyLe_total : ∀ a b : Nat × Nat, (pyLe a b || pyLe b a) = true := by
  intro a b
  simp only [pyLe, Bool.or_eq_true, Bool.and_eq_true, decide_eq_true_eq]
  omega

instance : IsAntisymm (Nat × Int) (fun a b => a.2 < b.2) :=
  ⟨fun a b h₁ h₂ => absurd (h₁.trans h₂) (lt_irrefl _)⟩

instance : IsAntisymm (Nat × Nat) (fun p q => p.1 < q.1) :=
  ⟨fun a b h₁ h₂ => absurd (h₁.trans h₂) (lt_irrefl _)⟩

theorem sorted_dims_eq_range (dims : List Int) {n : Nat}
    (hperm : dims.Perm ((List.range n).map Int.ofNat)) :
    dims.mergeSort intLe = (List.range n).map Int.ofNat := by
  apply List.eq_of_perm_of_sorted (r := fun a b : Int => a ≤ b)
  · exact (List.mergeSort_perm dims intLe).trans hperm
  · exact (List.sorted_mergeSort intLe_trans intLe_total dims).imp
      (fun h => of_decide_eq_true h)
  · refine List.pairwise_map.mpr ?_
    exact (List.pairwise_lt_range n).imp (fun h => Int.ofNat_le.mpr (le_of_lt h))

theorem c7_success (input : List Nat) (dims : List Int)
    (hlen : dims.length = input.length)
    (hperm : dims.Perm ((List.range input.length).map Int.ofNat)) :
    permute input dims = Except.ok (dims.map (fun d => input.getD d.toNat 0)) := by
  set n := input.length with hn
  have hrangemap_nodup : ((List.range n).map Int.ofNat).Nodup :=
    (List.nodup_range n).map Int.ofNat_injective
  have hnd : dims.Nodup := (hperm.nodup_iff).mpr hrangemap_nodup
  have hmem : ∀ k : Nat, k < n → (Int.ofNat k) ∈ dims := by
    intro k hk
    exact hperm.mem_iff.mpr (List.mem_map.mpr ⟨k, List.mem_range.mpr hk, rfl⟩)
  -- the three checks of `permute` succeed
  rw [permute, if_neg (by omega)]
  rw [if_neg (by rw [hlen]; exact fun hne => hne (sorted_dims_eq_range dims hperm))]
  rw [if_neg (by rw [hnd.dedup]; exact fun hne => hne rfl)]
  -- step 1: the key-sorted enumeration equals the explicit inverse-permutation list
  have henum : dims.enum = List.map (fun d : Int => (List.indexOf d dims, d)) dims := by
    apply List.ext_getElem
    · simp [List.enum_length]
    · intro i h₁ h₂
      simp only [List.getElem_enum, List.getElem_map]
      rw [List.indexOf_getElem hnd]
  have hL1 : dims.enum.mergeSort byKey =
      (List.range n).map (fun k => (List.indexOf (Int.ofNat k) dims, Int.ofNat k)) := by
    apply List.eq_of_perm_of_sorted (r := fun a b : Nat × Int => a.2 < b.2)
    · refine (List.mergeSort_perm dims.enum byKey).trans ?_
      rw [henum]
      have : (List.range n).map (fun k => (List.indexOf (Int.ofNat k) dims, Int.ofNat k)) =
          List.map (fun d : Int => (List.indexOf d dims, d))
            ((List.range n).map Int.ofNat) := by
        rw [List.map_map]; rfl
      rw [this]
      exact hperm.map _
    · -- sortedness of the mergeSort result, strictified by nodup of the keys
      have hsle : (dims.enum.mergeSort byKey).Pairwise (fun a b => a.2 ≤ b.2) :=
        (List.sorted_mergeSort byKey_trans byKey_total dims.enum).imp
          (fun h => of_decide_eq_true h)
      have hsnd : ((dims.enum.mergeSort byKey).map Prod.snd).Perm dims := by
        have := (List.mergeSort_perm dims.enum byKey).map Prod.snd
        rwa [List.enum_map_snd] at this
      have hsndnodup : ((dims.enum.mergeSort byKey).map Prod.snd).Nodup :=
        (hsnd.nodup_iff).mpr hnd
      have hne : (dims.enum.mergeSort byKey).Pairwise (fun a b => a.2 ≠ b.2) :=
        List.pairwise_map.mp hsndnodup
      exact (hsle.and hne).imp (fun h => lt_of_le_of_ne h.1 h.2)
    · refine List.pairwise_map.mpr ?_
      exact (List.pairwise_lt_range n).imp (fun h => Int.ofNat_lt.mpr h)
  have hscat : (dims.enum.mergeSort byKey).map Prod.fst =
      (List.range n).map (fun k => List.indexOf (Int.ofNat k) dims) := by
    rw [hL1, List.map_map]; rfl
  have hlenL1 : ((dims.enum.mergeSort byKey).map Prod.fst).length = n := by
    rw [List.length_map, (List.mergeSort_perm _ _).length_eq, List.enum_length, hlen]
  have hfstperm : ((dims.enum.mergeSort byKey).map Prod.fst).Perm (List.range n) := by
    have h₂ := (List.mergeSort_perm dims.enum byKey).map Prod.fst
    rw [List.enum_map_fst, hlen] at h₂
    exact h₂
  have hzip : ((dims.enum.mergeSort byKey).map Prod.fst).zip input =
      (List.range n).map (fun k => (List.indexOf (Int.ofNat k) dims, input.getD k 0)) := by
    apply List.ext_getElem
    · rw [List.length_zip, hlenL1, List.length_map, List.length_range]
      omega
    · intro i h₁ h₂
      rw [List.getElem_zip]
      have hi : i < n := by
        rw [List.length_zip, hlenL1] at h₁
        omega
      simp only [hscat, List.getElem_map, List.getElem_range]
      rw [List.getD_eq_getElem]
  have hu : ∀ k : Nat, k < n →
      (List.indexOf (Int.ofNat k) dims,
        input.getD (dims.getD (List.indexOf (Int.ofNat k) dims) 0).toNat 0) =
      (List.indexOf (Int.ofNat k) dims, input.getD k 0) := by
    intro k hk
    have hm := hmem k hk
    have hidx : List.indexOf (Int.ofNat k) dims < dims.length :=
      List.indexOf_lt_length.mpr hm
    rw [List.getD_eq_getElem dims 0 hidx, List.getElem_indexOf hidx]
    rfl
  have hpermzip :
      ((List.range n).map
        (fun k => (List.indexOf (Int.ofNat k) dims, input.getD k 0))).Perm
      ((List.range n).map (fun j => (j, input.getD (dims.getD j 0).toNat 0))) := by
    have h₁ : (List.range n).map
        (fun k => (List.indexOf (Int.ofNat k) dims, input.getD k 0)) =
        List.map (fun j : Nat => (j, input.getD (dims.getD j 0).toNat 0))
          ((List.range n).map (fun k => List.indexOf (Int.ofNat k) dims)) := by
      rw [List.map_map]
      apply List.map_congr_left
      intro k hk
      exact (hu k (List.mem_range.mp hk)).symm
    rw [h₁]
    apply List.Perm.map
    rw [← hscat]
    exact hfstperm
  have hL2 : (((dims.enum.mergeSort byKey).map Prod.fst).zip input).mergeSort pyLe =
      (List.range n).map (fun j => (j, input.getD (dims.getD j 0).toNat 0)) := by
    apply List.eq_of_perm_of_sorted (r := fun p q : Nat × Nat => p.1 < q.1)
    · refine (List.mergeSort_perm _ pyLe).trans ?_
      rw [hzip]
      exact hpermzip
    · have hsle : ((((dims.enum.mergeSort byKey).map Prod.fst).zip input).mergeSort
          pyLe).Pairwise (fun p q => p.1 < q.1 ∨ (p.1 = q.1 ∧ p.2 ≤ q.2)) :=
        (List.sorted_mergeSort pyLe_trans pyLe_total _).imp (fun h => by
          revert h
          simp only [pyLe, Bool.or_eq_true, Bool.and_eq_true, decide_eq_true_eq]
          exact id)
      have hfst2 : (((((dims.enum.mergeSort byKey).map Prod.fst).zip input).mergeSort
          pyLe).map Prod.fst).Perm (List.range n) := by
        have h₂ := (List.mergeSort_perm
          (((dims.enum.mergeSort byKey).map Prod.fst).zip input) pyLe).map Prod.fst
        rw [List.map_fst_zip _ _ (by rw [hlenL1])] at h₂
        exact h₂.trans hfstperm
      have hfstnodup := (hfst2.nodup_iff).mpr (List.nodup_range n)
      have hne : ((((dims.enum.mergeSort byKey).map Prod.fst).zip input).mergeSort
          pyLe).Pairwise (fun p q => p.1 ≠ q.1) := List.pairwise_map.mp hfstnodup
      exact (hsle.and hne).imp (fun h => by
        rcases h with ⟨h₁ | ⟨heq, _⟩, h₂⟩
        · exact h₁
        · exact absurd heq h₂)
    · refine List.pairwise_map.mpr ?_
      exact (List.pairwise_lt_range n).imp (fun h => h)
  show Except.ok (((((dims.enum.mergeSort byKey).map Prod.fst).zip
      input).mergeSort pyLe).map Prod.snd) = _
  rw [hL2, List.map_map]
  congr 1
  apply List.ext_getElem
  · rw [List.length_map, List.length_range, List.length_map]
    omega
  · intro i h₁ h₂
    have hi : i < dims.length := by
      rw [List.length_map, List.length_range] at h₁
      omega
    simp only [List.getElem_map, List.getElem_range, Function.comp]
    rw [List.getD_eq_getElem dims 0 hi]

/-- C7: `permute(s, *dims)` returns the shape `t` with `t[i] = s[dims[i]]`
(equivalently `t = [s[d] for d in dims]`) whenever `dims` is a permutation
of `0..rank-1`; a length mismatch raises a type error and a non-permutation
of the right length raises a value error. -/
theorem C7_permute_spec (input : List Nat) (dims : List Int) :
    (dims.length ≠ input.length → permute input dims = Except.error Err.typeError) ∧
    (dims.length = input.length →
      ¬ dims.Perm ((List.range input.length).map Int.ofNat) →
      permute input dims = Except.error Err.valueError) ∧
    (dims.length = input.length →
      dims.Perm ((List.range input.length).map Int.ofNat) →
      permute input dims = Except.ok (dims.map (fun d => input.getD d.toNat 0))) := by
  refine ⟨?_, ?_, fun hlen hperm => c7_success input dims hlen hperm⟩
  · intro h
    rw [permute, if_pos (by omega)]
  · intro hlen hnp
    rw [permute, if_neg (by omega)]
    have hcond : ¬ (dims.mergeSort intLe = (List.range dims.length).map Int.ofNat) := by
      intro heq
      apply hnp
      have h₂ : dims.Perm ((List.range dims.length).map Int.ofNat) :=
        (List.mergeSort_perm dims intLe).symm.trans (heq ▸ List.Perm.refl _)
      rwa [hlen] at h₂
    rw [if_pos hcond]

/-- C7 (witness): the spec's concrete scenario `permute((2, 3, 5), (2, 0, 1))
== (5, 2, 3)`, plus one input per error branch. -/
theorem C7_permute_spec_witness :
    permute [2, 3, 5] [2, 0, 1] = Except.ok [5, 2, 3] ∧
    permute [2, 3, 5] [0, 1] = Except.error Err.typeError ∧
    permute [2, 3, 5] [0, 0, 1] = Except.error Err.valueError :=
  ⟨(C7_permute_spec [2, 3, 5] [2, 0, 1]).2.2 rfl (by decide),
   (C7_permute_spec [2, 3, 5] [0, 1]).1 (by decide),
   (C7_permute_spec [2, 3, 5] [0, 0, 1]).2.1 rfl (by decide)⟩
